import Mathlib

/-!
# Verification of the claude-sheets-api request pipeline

A shallow embedding of the repository's core request-processing pipeline:

* `RateLimiter` (src `rate-limiter.ts`): per-client sliding-window rate
  limiting over an in-memory map of timestamp lists;
* `executeWithRetry` (src `claude-wrapper.ts`): exponential-backoff retry
  around a fallible subprocess run;
* `parseOutput` and the `extract*` helpers (src `claude-wrapper.ts`): the
  deterministic text-extraction pass over the tool's raw output;
* `validateAuth` (src `auth.ts`): credential and origin/referer checks;
* `POST` (src `app/api/claude-code/route.ts`): the orchestrator sequencing
  the stages and assembling the error/success outcome.

JavaScript strings are modelled as Lean `String`/`List Char` (code points in
place of UTF-16 units; the difference is invisible on the inputs treated
here), JS numbers holding timestamps as `Int`, and the fallible subprocess as
an explicit outcome function `Nat → ExecOutcome` indexed by attempt number.
-/

/-! ## JS primitives: whitespace, digits, word characters, trim, split -/

/-- The character class of JavaScript `\s` (also the set trimmed by
`String.prototype.trim`): whitespace and line terminators. -/
def isJsSpace (c : Char) : Bool :=
  c.toNat == 32 || c.toNat == 9 || c.toNat == 10 || c.toNat == 13 ||
  c.toNat == 11 || c.toNat == 12 || c.toNat == 160 || c.toNat == 0x1680 ||
  (0x2000 ≤ c.toNat && c.toNat ≤ 0x200a) ||
  c.toNat == 0x2028 || c.toNat == 0x2029 || c.toNat == 0x202f ||
  c.toNat == 0x205f || c.toNat == 0x3000 || c.toNat == 0xfeff

/-- JavaScript `\d`, i.e. `[0-9]`. -/
def isJsDigit (c : Char) : Bool :=
  48 ≤ c.toNat && c.toNat ≤ 57

/-- JavaScript `\w`, i.e. `[A-Za-z0-9_]`. -/
def isJsWord (c : Char) : Bool :=
  isJsDigit c || (65 ≤ c.toNat && c.toNat ≤ 90) ||
  (97 ≤ c.toNat && c.toNat ≤ 122) || c.toNat == 95

/-- Model: `String.prototype.trim` on a character list: strip leading and trailing
JS whitespace. -/
def jsTrimL (l : List Char) : List Char :=
  ((l.dropWhile isJsSpace).reverse.dropWhile isJsSpace).reverse

/-- Model: `String.prototype.trim`. -/
def jsTrim (s : String) : String :=
  String.mk (jsTrimL s.data)

/-- Model: `String.prototype.split('\n')`: splits on every newline, keeping empty
segments (so the empty string yields `[[]]`). -/
def splitLines : List Char → List (List Char)
  | [] => [[]]
  | c :: rest =>
    match splitLines rest with
    | r =>
      if c == '\n' then [] :: r
      else
        match r with
        | [] => [[c]]
        | h :: t => (c :: h) :: t

/-- Model: `Array.prototype.join('\n')` on lines. -/
def joinLines : List (List Char) → List Char
  | [] => []
  | [l] => l
  | l :: ls => l ++ '\n' :: joinLines ls

/-- Model: `a.take pat.length == pat`: does `l` start with `pat`? -/
def listStarts (pat l : List Char) : Bool :=
  l.take pat.length == pat

/-- JavaScript `String.prototype.includes` on character lists. -/
def listContainsSub (l pat : List Char) : Bool :=
  match l with
  | [] => pat == []
  | _ :: rest => listStarts pat l || listContainsSub rest pat

/-- Model: `String.prototype.toLowerCase` (ASCII range, all inputs here are ASCII). -/
def lowerL (l : List Char) : List Char :=
  l.map Char.toLower

/-! ## RateLimiter (src `rate-limiter.ts`)

`requests : Map<string, number[]>` is modelled as an association list with
distinct keys; `mapSet` mirrors `Map.prototype.set` (replace in place, else
append at the end), `List.lookup` mirrors `Map.prototype.get`. -/

/-- Model: `RateLimitResult` from `types.ts` (`resetTime` is the spec's
`resetMillis`). -/
structure RateLimitResult where
  allowed : Bool
  remaining : Int
  resetTime : Int
deriving DecidableEq, Repr

/-- The `RateLimiter` instance state and configuration. -/
structure RateLimiter where
  requests : List (String × List Int)
  windowMs : Int
  maxRequests : Nat
  skipSuccessfulRequests : Bool
deriving DecidableEq, Repr

/-- Model: `Map.prototype.set`: replace the entry for `k` in place, or append a new
entry at the end. -/
def mapSet : List (String × List Int) → String → List Int → List (String × List Int)
  | [], k, v => [(k, v)]
  | (a, b) :: rest, k, v =>
    if a = k then (k, v) :: rest else (a, b) :: mapSet rest k v

/-- Model: `this.requests.get(clientId) || []` (an empty stored array is truthy in
JS, so `getD` on the lookup is exact). -/
def clientRequestsOf (rl : RateLimiter) (clientId : String) : List Int :=
  (List.lookup clientId rl.requests).getD []

/-- Model: `Math.min(...list)`; the empty case (JS `Infinity`) is unreachable in
`check` whenever `maxRequests ≥ 1` and is given a dummy value. -/
def listMinD : List Int → Int
  | [] => 0
  | h :: t => t.foldl min h

/-- Model: `RateLimiter.check` from `rate-limiter.ts`: prune timestamps outside the
trailing window, deny (without writing back) when the pruned count has
reached `maxRequests`, otherwise append `now` and store the new list. -/
def RateLimiter.check (rl : RateLimiter) (clientId : String) (now : Int) :
    RateLimitResult × RateLimiter :=
  let windowStart := now - rl.windowMs
  let clientRequests :=
    (clientRequestsOf rl clientId).filter (fun t => decide (windowStart < t))
  if rl.maxRequests ≤ clientRequests.length then
    let oldestRequest := listMinD clientRequests
    let resetTime := oldestRequest + rl.windowMs - now
    ({ allowed := false, remaining := 0, resetTime := max resetTime 0 }, rl)
  else
    let newRequests := clientRequests ++ [now]
    ({ allowed := true,
       remaining := (rl.maxRequests : Int) - (newRequests.length : Int),
       resetTime := rl.windowMs },
     { rl with requests := mapSet rl.requests clientId newRequests })

/-- Model: `RateLimiter.recordSuccess`: when `skipSuccessfulRequests` is set, pop
the most recent timestamp of the client. -/
def RateLimiter.recordSuccess (rl : RateLimiter) (clientId : String) : RateLimiter :=
  if rl.skipSuccessfulRequests then
    let clientRequests := (List.lookup clientId rl.requests).getD []
    if 0 < clientRequests.length then
      { rl with requests := mapSet rl.requests clientId clientRequests.dropLast }
    else rl
  else rl

/-! ### Association-list lemmas -/

theorem lookup_mapSet (m : List (String × List Int)) (k : String) (v : List Int) :
    List.lookup k (mapSet m k v) = some v := by
  induction m with
  | nil => simp [mapSet, List.lookup]
  | cons p rest ih =>
    obtain ⟨a, b⟩ := p
    by_cases h : a = k
    · subst h
      simp [mapSet, List.lookup]
    · have hbk : (k == a) = false := by
        simp [beq_iff_eq]
        exact fun hk => h hk.symm
      simp [mapSet, h, List.lookup, hbk, ih]


/-- The pruned in-window request list that `check` computes for a client:
stored timestamps strictly newer than `now - windowMs`. -/
def prunedL (rl : RateLimiter) (c : String) (now : Int) : List Int :=
  (clientRequestsOf rl c).filter (fun t => decide (now - rl.windowMs < t))

theorem filter_idem (p : α → Bool) (l : List α) : (l.filter p).filter p = l.filter p := by
  induction l with
  | nil => simp
  | cons a t ih =>
    by_cases h : p a <;> simp [List.filter_cons, h, ih]

theorem check_denied_spec (rl : RateLimiter) (c : String) (now : Int)
    (hc : rl.maxRequests ≤ (prunedL rl c now).length) :
    rl.check c now =
      ({ allowed := false, remaining := 0,
         resetTime := max (listMinD (prunedL rl c now) + rl.windowMs - now) 0 },
       rl) := by
  unfold prunedL at hc
  simp only [RateLimiter.check]
  rw [if_pos hc]
  rfl

theorem check_allowed_spec (rl : RateLimiter) (c : String) (now : Int)
    (hc : ¬ rl.maxRequests ≤ (prunedL rl c now).length) :
    rl.check c now =
      ({ allowed := true,
         remaining := ((rl.maxRequests : Int) - ((prunedL rl c now).length + 1 : Nat)),
         resetTime := rl.windowMs },
       { rl with requests := (mapSet rl.requests c (prunedL rl c now ++ [now])) }) := by
  unfold prunedL at hc
  simp only [RateLimiter.check]
  rw [if_neg hc]
  simp [prunedL]

/-! ### Rate-limiter claims -/

/-- The limiter configured as in the concrete scenario of the spec. -/
def rlDemo : RateLimiter :=
  { requests := [], windowMs := 60000, maxRequests := 2,
    skipSuccessfulRequests := false }

/-- C1: with windowWidth 60000 ms and maxRequests 2, the checks for one
client at t = 0, 10, 20, 61000 return, in order: allowed with remaining 1;
allowed with remaining 0; denied with remaining 0 and resetTime 59980;
allowed again. -/
theorem rateLimiter_concrete_window_scenario :
    (rlDemo.check "c1" 0).1.allowed = true
    ∧ (rlDemo.check "c1" 0).1.remaining = 1
    ∧ ((rlDemo.check "c1" 0).2.check "c1" 10).1.allowed = true
    ∧ ((rlDemo.check "c1" 0).2.check "c1" 10).1.remaining = 0
    ∧ (((rlDemo.check "c1" 0).2.check "c1" 10).2.check "c1" 20).1
        = { allowed := false, remaining := 0, resetTime := 59980 }
    ∧ ((((rlDemo.check "c1" 0).2.check "c1" 10).2.check "c1" 20).2.check
          "c1" 61000).1.allowed = true := by
  decide

/-- C10: a denied `check` leaves the limiter's stored map exactly as it was:
the denial branch returns before any write-back, so neither the pruning nor
a new timestamp reaches the store. -/
theorem rateLimiter_denied_state_unchanged (rl : RateLimiter) (c : String)
    (now : Int) (h : (rl.check c now).1.allowed = false) :
    (rl.check c now).2 = rl := by
  by_cases hc : rl.maxRequests ≤ (prunedL rl c now).length
  · rw [check_denied_spec rl c now hc]
  · rw [check_allowed_spec rl c now hc] at h
    exact absurd h (by simp)

/-- A state in which the next check for client `"c"` at `now = 10` is
denied. -/
def rlDenied : RateLimiter :=
  { requests := [("c", [5])], windowMs := 10, maxRequests := 1,
    skipSuccessfulRequests := false }

/-- Witness for C10 at a concrete denied check. -/
theorem rateLimiter_denied_state_unchanged_witness :
    (rlDenied.check "c" 10).1.allowed = false
    ∧ (rlDenied.check "c" 10).2 = rlDenied :=
  ⟨by decide, rateLimiter_denied_state_unchanged rlDenied "c" 10 (by decide)⟩

/-- C9, first half: after an allowed check, the stored timestamps of that
client lying inside the trailing window number at most `maxRequests`;
second half: a timestamp at or before `now - windowMs`, inserted anywhere in
the client's stored list, never changes the decision returned by `check`. -/
theorem rateLimiter_window_invariant (rl : RateLimiter) (c : String)
    (now : Int) (hW : 0 < rl.windowMs) :
    ((rl.check c now).1.allowed = true →
      ((clientRequestsOf (rl.check c now).2 c).filter
          (fun t => decide (now - rl.windowMs < t))).length ≤ rl.maxRequests)
    ∧ (∀ (t : Int) (pre post : List Int), t ≤ now - rl.windowMs →
        clientRequestsOf rl c = pre ++ post →
        (RateLimiter.check
            { rl with requests := (mapSet rl.requests c (pre ++ t :: post)) }
            c now).1
          = (rl.check c now).1) := by
  constructor
  · intro hallow
    by_cases hc : rl.maxRequests ≤ (prunedL rl c now).length
    · rw [check_denied_spec rl c now hc] at hallow
      exact absurd hallow (by simp)
    · rw [check_allowed_spec rl c now hc]
      have h3 : clientRequestsOf
          { rl with requests := (mapSet rl.requests c (prunedL rl c now ++ [now])) } c
          = prunedL rl c now ++ [now] := by
        simp [clientRequestsOf, lookup_mapSet]
      rw [h3, List.filter_append]
      have h4 : (prunedL rl c now).filter (fun t => decide (now - rl.windowMs < t))
          = prunedL rl c now := filter_idem _ _
      have h5 : ([now].filter (fun t => decide (now - rl.windowMs < t))) = [now] := by
        have hlt : now - rl.windowMs < now := by omega
        simp [hlt]
      rw [h4, h5]
      have h6 : (prunedL rl c now).length < rl.maxRequests := Nat.lt_of_not_le hc
      simp only [List.length_append, List.length_singleton]
      omega
  · intro t pre post ht hsplit
    have hp : (decide (now - rl.windowMs < t)) = false := by
      simp
      omega
    simp only [clientRequestsOf] at hsplit
    have hfilter : (pre ++ t :: post).filter
          (fun x => decide (now - rl.windowMs < x))
        = ((List.lookup c rl.requests).getD []).filter
          (fun x => decide (now - rl.windowMs < x)) := by
      rw [hsplit]
      simp [List.filter_append, List.filter_cons, hp]
    simp only [RateLimiter.check, clientRequestsOf, lookup_mapSet, Option.getD_some]
    rw [hfilter]
    rw [apply_ite Prod.fst, apply_ite Prod.fst]

/-- A concrete allowed-check state for the C9 witness. -/
def rlInv : RateLimiter :=
  { requests := [("c", [5])], windowMs := 10, maxRequests := 2,
    skipSuccessfulRequests := false }

/-- Witness for C9: after the allowed check at `now = 12` the in-window
count is within the bound, and inserting the stale timestamp `1` before the
stored `5` leaves the decision unchanged. -/
theorem rateLimiter_window_invariant_witness :
    (((clientRequestsOf (rlInv.check "c" 12).2 "c").filter
        (fun t => decide (12 - rlInv.windowMs < t))).length ≤ rlInv.maxRequests)
    ∧ ((RateLimiter.check
          { rlInv with requests := (mapSet rlInv.requests "c" ([] ++ 1 :: [5])) }
          "c" 12).1
        = (rlInv.check "c" 12).1) := by
  have h := rateLimiter_window_invariant rlInv "c" 12 (by decide)
  exact ⟨h.1 (by decide), h.2 1 [] [5] (by decide) (by decide)⟩

/-! ## ExecutionWrapper retry (src `claude-wrapper.ts`, `executeWithRetry`)

One subprocess run (`executeClaude`) either resolves with the accumulated
stdout or rejects (non-zero exit, spawn error, timeout).  It is modelled as
a function from the attempt number (counted from 1, as in the source loop)
to an outcome.  `executeWithRetry` loops `attempt = 1 .. maxRetries`,
returning the first success; between consecutive attempts it waits
`Math.pow(2, attempt - 1) * 1000` ms (collected here as a list of waits),
and after the last failure throws
`"Claude CLI failed after N attempts: <last message>"`. -/

/-- Outcome of a single `executeClaude` subprocess run. -/
inductive ExecOutcome where
  | ok (output : String)
  | err (msg : String)
deriving DecidableEq, Repr

/-- The message of the error thrown after the retry budget is exhausted
(`lastError?.message` renders as `"undefined"` when no attempt ran). -/
def retryFailMsg (maxRetries : Nat) (lastError : Option String) : String :=
  "Claude CLI failed after " ++ toString maxRetries ++ " attempts: "
    ++ lastError.getD "undefined"

/-- The retry loop body from `attempt`, with `remaining` loop iterations
left (`remaining = maxRetries + 1 - attempt` at every reachable call) and
the last error seen so far.  Returns the overall result and the list of
backoff waits performed, in order.  (`2 ^ (attempt - 1)` uses truncated
`Nat` subtraction; attempts start at 1, so the JS fractional case
`Math.pow(2, -1)` is unreachable.) -/
def retryFrom (run : Nat → ExecOutcome) (maxRetries : Nat) :
    Nat → Nat → Option String → Except String String × List Nat
  | _, 0, lastError => (Except.error (retryFailMsg maxRetries lastError), [])
  | attempt, remaining + 1, _ =>
    match run attempt with
    | .ok output => (Except.ok output, [])
    | .err msg =>
      if attempt < maxRetries then
        let rest := retryFrom run maxRetries (attempt + 1) remaining (some msg)
        (rest.1, (2 ^ (attempt - 1) * 1000) :: rest.2)
      else (Except.error (retryFailMsg maxRetries (some msg)), [])

/-- Model: `ClaudeWrapper.executeWithRetry`: run the loop from attempt 1. -/
def executeWithRetry (run : Nat → ExecOutcome) (maxRetries : Nat) :
    Except String String × List Nat :=
  retryFrom run maxRetries 1 maxRetries none

/-- A subprocess abstraction that fails on exactly the first `k` attempts
and then succeeds with output `out`. -/
def failsThenSucceeds (k : Nat) (msgs : Nat → String) (out : String) :
    Nat → ExecOutcome :=
  fun attempt => if attempt ≤ k then ExecOutcome.err (msgs attempt)
                 else ExecOutcome.ok out

theorem retryFrom_ok_iff (k maxRetries : Nat) (msgs : Nat → String) (out : String) :
    ∀ (remaining attempt : Nat) (lastE : Option String),
      attempt + remaining = maxRetries + 1 → attempt ≤ k + 1 →
      ((retryFrom (failsThenSucceeds k msgs out) maxRetries attempt remaining lastE).1
        = Except.ok out ↔ k + 1 ≤ maxRetries) := by
  intro remaining
  induction remaining with
  | zero =>
    intro attempt lastE hsum hle
    simp [retryFrom]
    omega
  | succ r ih =>
    intro attempt lastE hsum hle
    simp only [retryFrom, failsThenSucceeds]
    by_cases hk : attempt ≤ k
    · simp only [hk, if_true]
      by_cases hlt : attempt < maxRetries
      · simp only [hlt, if_true]
        exact ih (attempt + 1) (some (msgs attempt)) (by omega) (by omega)
      · simp [hlt]
        omega
    · simp [hk]
      omega

theorem retryFrom_succ_eq (run : Nat → ExecOutcome) (maxRetries attempt remaining : Nat)
    (lastE : Option String) :
    retryFrom run maxRetries attempt (remaining + 1) lastE =
      (match run attempt with
      | .ok output => (Except.ok output, [])
      | .err msg =>
        if attempt < maxRetries then
          ((retryFrom run maxRetries (attempt + 1) remaining (some msg)).1,
           (2 ^ (attempt - 1) * 1000)
             :: (retryFrom run maxRetries (attempt + 1) remaining (some msg)).2)
        else (Except.error (retryFailMsg maxRetries (some msg)), [])) := rfl

theorem retryFrom_all_fail (msgs : Nat → String) (maxRetries : Nat) :
    ∀ (r attempt : Nat) (lastE : Option String),
      attempt + r + 1 = maxRetries + 1 →
      retryFrom (fun a => ExecOutcome.err (msgs a)) maxRetries attempt (r + 1) lastE
        = (Except.error (retryFailMsg maxRetries (some (msgs maxRetries))),
           (List.range' attempt r).map (fun a => 2 ^ (a - 1) * 1000)) := by
  intro r
  induction r with
  | zero =>
    intro attempt lastE hsum
    have ha : attempt = maxRetries := by omega
    subst ha
    simp [retryFrom]
  | succ r ih =>
    intro attempt lastE hsum
    have hlt : attempt < maxRetries := by omega
    rw [retryFrom_succ_eq]
    dsimp only
    rw [if_pos hlt]
    rw [ih (attempt + 1) (some (msgs attempt)) (by omega)]
    rw [List.range'_succ]
    rfl

/-- C2: against a subprocess failing exactly the first `k` attempts,
`executeWithRetry` succeeds iff `k + 1 ≤ maxRetries`; when every attempt
fails, it throws the `ExecutionError` message carrying the last underlying
failure's message, after waiting `2^(attempt-1) * 1000` ms between the
consecutive attempts `1 .. maxRetries - 1`. -/
theorem executeWithRetry_retry_convergence (k maxRetries : Nat)
    (msgs : Nat → String) (out : String) :
    ((executeWithRetry (failsThenSucceeds k msgs out) maxRetries).1
        = Except.ok out ↔ k + 1 ≤ maxRetries)
    ∧ (1 ≤ maxRetries →
        executeWithRetry (fun a => ExecOutcome.err (msgs a)) maxRetries
          = (Except.error (retryFailMsg maxRetries (some (msgs maxRetries))),
             (List.range' 1 (maxRetries - 1)).map (fun a => 2 ^ (a - 1) * 1000))) := by
  constructor
  · exact retryFrom_ok_iff k maxRetries msgs out maxRetries 1 none (by omega) (by omega)
  · intro h1
    obtain ⟨m, rfl⟩ : ∃ m, maxRetries = m + 1 := ⟨maxRetries - 1, by omega⟩
    unfold executeWithRetry
    simp only [Nat.add_sub_cancel]
    exact retryFrom_all_fail msgs (m + 1) m 1 none (by omega)

/-- Witness for C2: two failures then success within 3 retries succeeds;
three straight failures yield the exhaustion error and backoff waits
1000 ms then 2000 ms. -/
theorem executeWithRetry_retry_convergence_witness :
    ((executeWithRetry (failsThenSucceeds 1 (fun _ => "boom") "done") 3).1
        = Except.ok "done")
    ∧ executeWithRetry (fun _ => ExecOutcome.err "boom") 3
        = (Except.error "Claude CLI failed after 3 attempts: boom", [1000, 2000]) := by
  refine ⟨(executeWithRetry_retry_convergence 1 3 (fun _ => "boom") "done").1.mpr
    (by omega), ?_⟩
  have h2 := (executeWithRetry_retry_convergence 0 3 (fun _ => "boom") "x").2 (by omega)
  exact h2.trans (by rfl)

/-! ## ResponseExtractor (src `claude-wrapper.ts`, `parseOutput` and helpers)

The regexes of the source are rendered as explicit scanners:

* ``/```[\w]*\n([\s\S]*?)\n```/g`` — `extractCodeBlocks`: at the earliest
  position where three backticks, a maximal word-character run and a newline
  match, the lazy group captures up to the first newline-plus-backticks
  close; scanning resumes after the close;
* `/^[-*]\s+/` and `/^\d+\.\s+/` — `matchBulletLine` / `matchNumberedLine`
  (the quantified classes exclude what follows them, so the greedy runs
  need no backtracking);
* `replace(/^[-*\d.]\s+/, '')` — `stripListMarker`: note the source class
  matches a SINGLE marker character, so the replace fires only when the
  second character is whitespace. -/

/-- Line matches `/^[-*]\s+/`. -/
def matchBulletLine (l : List Char) : Bool :=
  match l with
  | c :: d :: _ => (c == '-' || c == '*') && isJsSpace d
  | _ => false

/-- Line matches `/^\d+\.\s+/`. -/
def matchNumberedLine (l : List Char) : Bool :=
  (match l with
   | c :: _ => isJsDigit c
   | [] => false) &&
  (match l.dropWhile isJsDigit with
   | '.' :: d :: _ => isJsSpace d
   | _ => false)

/-- Model: `line.replace(/^[-*\d.]\s+/, '')`: one character of the class followed
by a maximal whitespace run is removed; otherwise the line is unchanged. -/
def stripListMarker (l : List Char) : List Char :=
  match l with
  | c :: d :: rest =>
    if (c == '-' || c == '*' || isJsDigit c || c == '.') && isJsSpace d then
      (d :: rest).dropWhile isJsSpace
    else l
  | _ => l

/-- The three-backtick fence delimiter. -/
def fenceChars : List Char := "```".data

/-- Find the first `"\n```"` in the text; return the lazily captured text
before it and the remainder after the close. -/
def findFenceClose : List Char → Option (List Char × List Char)
  | [] => none
  | c :: rest =>
    if c == '\n' && listStarts fenceChars rest then some ([], rest.drop 3)
    else
      match findFenceClose rest with
      | some (cap, rem) => some (c :: cap, rem)
      | none => none

/-- Match the fenced-block regex anchored at the start of `cs`; on success
return the captured group and the rest of the text after the match. -/
def matchFenceAt (cs : List Char) : Option (List Char × List Char) :=
  if listStarts fenceChars cs then
    match (cs.drop 3).dropWhile isJsWord with
    | '\n' :: body => findFenceClose body
    | _ => none
  else none

/-- The global `exec` loop: try to match at each position, resuming after
the end of each match.  Every step consumes at least one character, so fuel
equal to the text length suffices exactly. -/
def scanCodeBlocks : Nat → List Char → List (List Char)
  | 0, _ => []
  | _ + 1, [] => []
  | fuel + 1, c :: rest =>
    match matchFenceAt (c :: rest) with
    | some (cap, rem) => cap :: scanCodeBlocks fuel rem
    | none => scanCodeBlocks fuel rest

/-- All captured fenced-block bodies, in order of appearance. -/
def extractCodeBlocks (output : String) : List String :=
  (scanCodeBlocks output.data.length output.data).map String.mk

/-- Model: `ClaudeWrapper.extractSection`: everything from the first line whose
lowercase form contains one of the keywords, joined and trimmed; the whole
trimmed text when no keyword occurs. -/
def extractSection (output : String) (keywords : List (List Char)) : String :=
  let lines := splitLines output.data
  match lines.findIdx?
      (fun line => keywords.any (fun kw => listContainsSub (lowerL line) kw)) with
  | some i => String.mk (jsTrimL (joinLines (lines.drop i)))
  | none => String.mk (jsTrimL output.data)

/-- Line matches `/^(Language|Framework):/i`. -/
def matchMetaLine (l : List Char) : Bool :=
  listStarts "language:".data (lowerL l) || listStarts "framework:".data (lowerL l)

/-- Model: `ClaudeWrapper.extractExplanation`: all non-fence, non-blank,
non-metadata lines joined back together and trimmed. -/
def extractExplanation (output : String) : String :=
  let lines := splitLines output.data
  let explanationLines := lines.filter (fun line =>
    !listStarts fenceChars line && !(jsTrimL line == []) && !matchMetaLine line)
  String.mk (jsTrimL (joinLines explanationLines))

/-- Model: `ClaudeWrapper.extractAnalysis`. -/
def extractAnalysis (output : String) : String :=
  extractSection output ["analysis".data, "review".data, "assessment".data]

/-- What one line contributes to the suggestion scan: list-marker lines
(bullet or numbered) yield the line after `stripListMarker` and `trim`. -/
def suggestionOfLine (line : List Char) : Option (List Char) :=
  if matchBulletLine line || matchNumberedLine line then
    some (jsTrimL (stripListMarker line))
  else none

/-- Model: `ClaudeWrapper.extractSuggestions`: collect marker lines; when none
exist, fall back to the single-element keyword-section list. -/
def extractSuggestions (output : String) : List String :=
  let lines := splitLines output.data
  let suggestions := lines.filterMap suggestionOfLine
  if 0 < suggestions.length then suggestions.map String.mk
  else [extractSection output ["suggestions".data, "recommendations".data]]

/-- Model: `ClaudeWrapper.extractOptimizations` (delegates). -/
def extractOptimizations (output : String) : List String :=
  extractSuggestions output

/-- Model: `ClaudeWrapper.extractReview`. -/
def extractReview (output : String) : String :=
  extractSection output ["review".data, "feedback".data, "assessment".data]

/-- Model: `ClaudeWrapper.extractIssues` (delegates). -/
def extractIssues (output : String) : List String :=
  extractSuggestions output

/-- Model: `ClaudeExecutionResult` from `types.ts`; `none` is a field the JS object
never received (`undefined`). -/
structure ClaudeExecutionResult where
  code : Option String := none
  analysis : Option String := none
  suggestions : Option (List String) := none
  explanation : Option String := none
deriving DecidableEq, Repr

/-- JS truthiness test for an optional string field: `undefined` and the
empty string are falsy. -/
def jsFalsy : Option String → Bool
  | none => true
  | some s => s == ""

/-- Model: `ClaudeWrapper.parseOutput`: action-dispatched extraction with the
falsy-guarded fallback that copies the raw text into `explanation`. -/
def parseOutput (output : String) (action : String) : ClaudeExecutionResult :=
  let codeBlocks := extractCodeBlocks output
  let r : ClaudeExecutionResult :=
    if action == "generate" then
      { code := codeBlocks.head?, explanation := some (extractExplanation output) }
    else if action == "analyze" then
      { analysis := some (extractAnalysis output),
        suggestions := some (extractSuggestions output) }
    else if action == "optimize" then
      { code := codeBlocks.head?, suggestions := some (extractOptimizations output) }
    else if action == "review" then
      { analysis := some (extractReview output),
        suggestions := some (extractIssues output) }
    else {}
  if jsFalsy r.code && jsFalsy r.analysis && jsFalsy r.explanation then
    { r with explanation := some output }
  else r

example : extractSuggestions "- a\n- b" = ["a", "b"] := by decide
example : extractSuggestions "1. improve x" = ["1. improve x"] := by decide
example : extractCodeBlocks "```\n x \n```" = [" x "] := by decide
example : parseOutput "" "analyze"
    = { analysis := some "", suggestions := some [""], explanation := some "" } := by
  decide

/-! ### Extraction lemmas -/

theorem jsSpace_not_digit (c : Char) (h : isJsSpace c = true) : isJsDigit c = false := by
  by_contra hd
  have hd2 : isJsDigit c = true := by
    cases hdig : isJsDigit c
    · exact absurd hdig hd
    · rfl
  unfold isJsDigit at hd2
  unfold isJsSpace at h
  simp only [Bool.or_eq_true, Bool.and_eq_true, beq_iff_eq, decide_eq_true_eq] at h hd2
  omega

theorem numbered_not_stripped (l : List Char) (h : matchNumberedLine l = true) :
    stripListMarker l = l := by
  cases l with
  | nil => rfl
  | cons c rest =>
    cases rest with
    | nil => rfl
    | cons d rest2 =>
      unfold matchNumberedLine at h
      rw [Bool.and_eq_true] at h
      obtain ⟨h1, h2⟩ := h
      have h1a : isJsDigit c = true := h1
      rw [List.dropWhile_cons, if_pos h1a, List.dropWhile_cons] at h2
      by_cases hd : isJsDigit d = true
      · rw [if_pos hd] at h2
        have hsd : isJsSpace d = false := by
          cases hsp : isJsSpace d
          · rfl
          · rw [jsSpace_not_digit d hsp] at hd
            exact absurd hd (by simp)
        simp [stripListMarker, hsd]
      · rw [if_neg hd] at h2
        split at h2
        · rename_i d1 tail heq
          have hdot : d = '.' := by
            injection heq with hh _
          subst hdot
          have hns : isJsSpace '.' = false := by decide
          simp [stripListMarker, hns]
        · exact absurd h2 (by simp)

theorem suggestionOfLine_eq (l : List Char) :
    suggestionOfLine l =
      (if matchBulletLine l then some (jsTrimL (stripListMarker l))
       else if matchNumberedLine l then some (jsTrimL l)
       else none) := by
  unfold suggestionOfLine
  by_cases hb : matchBulletLine l = true
  · simp [hb]
  · by_cases hn : matchNumberedLine l = true
    · simp [hb, hn, numbered_not_stripped l hn]
    · simp [hb, hn]

theorem filterMap_congr_on (l : List α) (f g : α → Option β)
    (h : ∀ a ∈ l, f a = g a) : l.filterMap f = l.filterMap g := by
  induction l with
  | nil => rfl
  | cons a t ih =>
    rw [List.filterMap_cons, List.filterMap_cons, h a (by simp),
      ih (fun x hx => h x (by simp [hx]))]

theorem filterMap_pos_of_any (l : List α) (p : α → Bool) (f : α → Option β)
    (hf : ∀ a, p a = true → (f a).isSome = true) (h : l.any p = true) :
    0 < (l.filterMap f).length := by
  induction l with
  | nil => simp at h
  | cons a t ih =>
    rw [List.any_cons, Bool.or_eq_true] at h
    rw [List.filterMap_cons]
    rcases h with h | h
    · have hs := hf a h
      cases hfa : f a with
      | none => rw [hfa] at hs; simp at hs
      | some b => simp [hfa]
    · cases hfa : f a with
      | none => exact ih h
      | some b => simp [hfa]

/-! ### Extraction claims -/

/-- C5 counterexample: parsed under `optimize`, the numbered line
`"1. improve x"` contributes itself whole — the `"1. "` marker survives the
single-character strip pattern. -/
theorem optimize_numbered_marker_counterexample :
    (parseOutput "1. improve x" "optimize").suggestions = some ["1. improve x"]
    ∧ ("1. improve x" : String) ≠ "improve x" :=
  ⟨by decide, by decide⟩

/-- C5 as amended: when any marker line exists, `optimize` suggestions are
exactly the marker lines in order, bullet lines with the marker and
following whitespace stripped then trimmed, numbered lines kept whole
(trimmed) because the strip pattern removes only a single marker
character. -/
theorem parseOutput_optimize_suggestions (output : String)
    (h : (splitLines output.data).any
        (fun l => matchBulletLine l || matchNumberedLine l) = true) :
    (parseOutput output "optimize").suggestions
      = some (((splitLines output.data).filterMap (fun l =>
          if matchBulletLine l then some (jsTrimL (stripListMarker l))
          else if matchNumberedLine l then some (jsTrimL l)
          else none)).map String.mk) := by
  have e1 : (("optimize" : String) == "generate") = false := by decide
  have e2 : (("optimize" : String) == "analyze") = false := by decide
  have e3 : (("optimize" : String) == "optimize") = true := by decide
  have hsugg : (parseOutput output "optimize").suggestions
      = some (extractSuggestions output) := by
    simp only [parseOutput, e1, e2, e3, if_true, if_false, Bool.false_eq_true,
      extractOptimizations]
    split <;> rfl
  rw [hsugg]
  simp only [extractSuggestions]
  have hlen : 0 < ((splitLines output.data).filterMap suggestionOfLine).length := by
    refine filterMap_pos_of_any _ _ _ ?_ h
    intro a ha
    unfold suggestionOfLine
    rw [if_pos ha]
    rfl
  rw [if_pos hlen]
  exact congrArg some (congrArg (List.map String.mk)
    (filterMap_congr_on _ _ _ (fun a _ => suggestionOfLine_eq a)))

/-- Witness for C5 as amended: a bullet line is stripped, a numbered line
is kept whole. -/
theorem parseOutput_optimize_suggestions_witness :
    (parseOutput "- a\n1. b" "optimize").suggestions = some ["a", "1. b"] := by
  rw [parseOutput_optimize_suggestions "- a\n1. b" (by decide)]
  decide

/-- C6 counterexample: the single fenced block with content `" x "` is
returned untrimmed by `generate` parsing, so `code ≠ trim(X)`. -/
theorem generate_code_untrimmed_counterexample :
    extractCodeBlocks "```\n x \n```" = [" x "]
    ∧ (parseOutput "```\n x \n```" "generate").code = some " x "
    ∧ (parseOutput "```\n x \n```" "generate").code ≠ some (jsTrim " x ") :=
  ⟨by decide, by decide, by decide⟩

/-- C6 as amended: when the text contains exactly one fenced block with
captured content `X`, parsing under `generate` or `optimize` yields
`code = X` exactly (no trimming is applied). -/
theorem parseOutput_code_single_block (output X action : String)
    (hX : extractCodeBlocks output = [X])
    (ha : action = "generate" ∨ action = "optimize") :
    (parseOutput output action).code = some X := by
  rcases ha with ha | ha <;> subst ha
  · have e3 : (("generate" : String) == "generate") = true := by decide
    simp only [parseOutput, e3, if_true, hX]
    split <;> rfl
  · have e1 : (("optimize" : String) == "generate") = false := by decide
    have e2 : (("optimize" : String) == "analyze") = false := by decide
    have e3 : (("optimize" : String) == "optimize") = true := by decide
    simp only [parseOutput, e1, e2, e3, if_true, if_false, Bool.false_eq_true, hX]
    split <;> rfl

/-- Witness for C6 as amended, on a concrete single-block text. -/
theorem parseOutput_code_single_block_witness :
    (parseOutput "```js\nfoo\n```" "generate").code = some "foo" :=
  parseOutput_code_single_block "```js\nfoo\n```" "foo" "generate" (by decide)
    (Or.inl rfl)

/-- C7 counterexample: parsing the empty string under `analyze` sets fields
besides `explanation`: `analysis` becomes `""` and `suggestions` becomes
`[""]`. -/
theorem parse_empty_analyze_counterexample :
    (parseOutput "" "analyze").suggestions = some [""]
    ∧ (parseOutput "" "analyze").analysis = some ""
    ∧ (parseOutput "" "analyze").suggestions ≠ none :=
  ⟨by decide, by decide, by decide⟩

/-- C7 as amended: parsing the empty string never fails and always yields
`explanation = ""` with `code` unset; under `generate` no other field is
set, while `analyze`/`review` also set `analysis = ""` and
`suggestions = [""]`, and `optimize` sets `suggestions = [""]`. -/
theorem parseOutput_empty_fallback :
    (∀ action : String, (parseOutput "" action).explanation = some ""
        ∧ (parseOutput "" action).code = none)
    ∧ parseOutput "" "generate" = { explanation := some "" }
    ∧ parseOutput "" "analyze"
        = { analysis := some "", suggestions := some [""], explanation := some "" }
    ∧ parseOutput "" "optimize"
        = { suggestions := some [""], explanation := some "" }
    ∧ parseOutput "" "review"
        = { analysis := some "", suggestions := some [""], explanation := some "" } := by
  refine ⟨?_, by decide, by decide, by decide, by decide⟩
  intro action
  by_cases h1 : action = "generate"
  · subst h1; exact ⟨by decide, by decide⟩
  by_cases h2 : action = "analyze"
  · subst h2; exact ⟨by decide, by decide⟩
  by_cases h3 : action = "optimize"
  · subst h3; exact ⟨by decide, by decide⟩
  by_cases h4 : action = "review"
  · subst h4; exact ⟨by decide, by decide⟩
  have e1 : (action == "generate") = false := beq_eq_false_iff_ne.mpr h1
  have e2 : (action == "analyze") = false := beq_eq_false_iff_ne.mpr h2
  have e3 : (action == "optimize") = false := beq_eq_false_iff_ne.mpr h3
  have e4 : (action == "review") = false := beq_eq_false_iff_ne.mpr h4
  simp only [parseOutput, e1, e2, e3, e4, Bool.false_eq_true, if_false]
  exact ⟨by decide, by decide⟩

/-! ## AuthGate (src `auth.ts`, `validateAuth` and `generateClientId`)

Headers are modelled as optional strings; the Referer header as
`RefererVal` (`absent` / `malformed` — `new URL` throws, caught by the
surrounding try into the generic failure — / `parsed` with the fields the
WHATWG parser exposes).  The `SECURITY` configuration comes from the
constants module (not under `src/`), so it is a parameter. -/

/-- Model: `AuthResult` from `types.ts`. -/
structure AuthResult where
  valid : Bool
  clientId : Option String
  message : Option String
deriving DecidableEq, Repr

/-- The `SECURITY` configuration consumed by `validateAuth`. -/
structure SecurityConfig where
  apiSecret : String
  allowedOrigins : List String
deriving DecidableEq, Repr

/-- The components of a parsed Referer URL used by the source
(`protocol` keeps its trailing colon, e.g. `"https:"`; `port` is the
explicit port or `""`). -/
structure ParsedURL where
  protocol : String
  hostname : String
  port : String
deriving DecidableEq, Repr

/-- The Referer header: missing, present but unparseable, or parsed. -/
inductive RefererVal where
  | absent
  | malformed
  | parsed (u : ParsedURL)
deriving DecidableEq, Repr

/-- The request data `validateAuth` reads. -/
structure AuthRequest where
  authorization : Option String
  origin : Option String
  referer : RefererVal
  userAgent : Option String
  xRequestedWith : Option String
  ip : Option String
  xForwardedFor : Option String
  sessionId : Option String
deriving DecidableEq, Repr

/-- JS `a || b` on an optional string: `null`/`undefined` and `""` fall
through to the default. -/
def jsOrS (a : Option String) (b : String) : String :=
  match a with
  | some s => if s == "" then b else s
  | none => b

/-- Model: `ToInt32` as used by the JS bitwise operators. -/
def toInt32 (x : Int) : Int :=
  (x + 2 ^ 31) % 2 ^ 32 - 2 ^ 31

/-- One digit of `Number.prototype.toString(36)`. -/
def base36Digit (n : Nat) : Char :=
  if n < 10 then Char.ofNat (48 + n) else Char.ofNat (87 + n)

/-- Base-36 digits of `n`, most significant first (fuel-structured; fuel
`n` suffices since the value shrinks at every step). -/
def natToBase36Go : Nat → Nat → List Char
  | 0, _ => []
  | _ + 1, 0 => []
  | fuel + 1, n => natToBase36Go fuel (n / 36) ++ [base36Digit (n % 36)]

/-- Model: `Math.abs(hash).toString(36)`. -/
def natToBase36 (n : Nat) : String :=
  if n == 0 then "0" else String.mk (natToBase36Go n n)

/-- Model: `generateClientId`: the 32-bit string hash of
`ip-userAgent-sessionId`, rendered in base 36 (`charCodeAt` is modelled by
the code point; identical on the BMP inputs at hand). -/
def generateClientId (ip xForwardedFor userAgent sessionId : Option String) : String :=
  let ipv := jsOrS ip (jsOrS xForwardedFor "unknown")
  let ua := jsOrS userAgent "unknown"
  let sid := jsOrS sessionId ""
  let rawString := ipv ++ "-" ++ ua ++ "-" ++ sid
  let hash := rawString.data.foldl
    (fun h c => toInt32 (toInt32 (h * 32) - h + (c.toNat : Int))) 0
  "client_" ++ natToBase36 hash.natAbs

/-- The successful `AuthResult` (the User-Agent / `x-requested-with` soft
check only logs and never rejects). -/
def authSuccess (req : AuthRequest) : AuthResult :=
  { valid := true,
    clientId := some (generateClientId req.ip req.xForwardedFor
      req.userAgent req.sessionId),
    message := some "Authentication successful" }

/-- The origin string the source computes from a parsed Referer:
`protocol + "//" + hostname` — the port never enters it. -/
def refererOriginOf (u : ParsedURL) : String :=
  u.protocol ++ "//" ++ u.hostname

/-- The Referer stage of `validateAuth`. -/
def authRefererCheck (cfg : SecurityConfig) (req : AuthRequest) : AuthResult :=
  match req.referer with
  | .absent => authSuccess req
  | .malformed =>
    { valid := false, clientId := none, message := some "Authentication failed" }
  | .parsed u =>
    if !(cfg.allowedOrigins.contains (refererOriginOf u)) then
      { valid := false, clientId := none, message := some "Referer not allowed" }
    else authSuccess req

/-- Model: `validateAuth` from `auth.ts`: bearer-header shape, exact key match,
then Origin allow-list, then Referer allow-list. -/
def validateAuth (cfg : SecurityConfig) (req : AuthRequest) : AuthResult :=
  match req.authorization with
  | none =>
    { valid := false, clientId := none,
      message := some "Missing or invalid Authorization header" }
  | some authHeader =>
    if !listStarts "Bearer ".data authHeader.data then
      { valid := false, clientId := none,
        message := some "Missing or invalid Authorization header" }
    else
      let apiKey : String := String.mk (authHeader.data.drop 7)
      if apiKey == "" || apiKey != cfg.apiSecret then
        { valid := false, clientId := none, message := some "Invalid API key" }
      else
        match req.origin with
        | some origin =>
          if !(cfg.allowedOrigins.contains origin) then
            { valid := false, clientId := none,
              message := some "Origin not allowed" }
          else authRefererCheck cfg req
        | none => authRefererCheck cfg req

theorem contains_iff_mem (l : List String) (a : String) :
    l.contains a = true ↔ a ∈ l := by
  induction l with
  | nil => simp
  | cons b t ih => simp [List.contains_cons, ih, beq_iff_eq]

/-! ### Auth claims -/

/-- An allow-list whose single entry names an explicit port. -/
def cfgC8 : SecurityConfig :=
  { apiSecret := "secret-key", allowedOrigins := ["https://example.com:8443"] }

/-- A request with a valid credential, no Origin, and a parsed Referer
whose URL carries that port. -/
def reqC8 : AuthRequest :=
  { authorization := some "Bearer secret-key", origin := none,
    referer := RefererVal.parsed ⟨"https:", "example.com", "8443"⟩,
    userAgent := none, xRequestedWith := none, ip := none,
    xForwardedFor := none, sessionId := none }

/-- C8 counterexample: the Referer's origin with its port
(`https://example.com:8443`) is in the allow-list, yet authentication is
rejected — the source drops the port when rebuilding the Referer origin. -/
theorem referer_port_dropped_counterexample :
    ("https:" ++ "//" ++ "example.com" ++ ":" ++ "8443") ∈ cfgC8.allowedOrigins
    ∧ (validateAuth cfgC8 reqC8).valid = false
    ∧ (validateAuth cfgC8 reqC8).message = some "Referer not allowed" :=
  ⟨by decide, by decide, by decide⟩

/-- C8 as amended: with a valid credential, no Origin header and a parsed
Referer, authentication succeeds iff `protocol + "//" + hostname` (the
port, if any, dropped) is in the allow-list. -/
theorem validateAuth_referer_origin (cfg : SecurityConfig) (req : AuthRequest)
    (u : ParsedURL) (a : String)
    (hA : req.authorization = some a)
    (hBearer : listStarts "Bearer ".data a.data = true)
    (hKey : String.mk (a.data.drop 7) = cfg.apiSecret)
    (hNE : cfg.apiSecret ≠ "")
    (hO : req.origin = none)
    (hR : req.referer = .parsed u) :
    ((validateAuth cfg req).valid = true
      ↔ (u.protocol ++ "//" ++ u.hostname) ∈ cfg.allowedOrigins) := by
  have hk1 : (cfg.apiSecret == "") = false := beq_eq_false_iff_ne.mpr hNE
  simp only [validateAuth, hA, hBearer, Bool.not_true, Bool.false_eq_true,
    if_false, hKey, hk1, bne_self_eq_false, Bool.or_self, hO]
  simp only [authRefererCheck, hR, refererOriginOf]
  by_cases hc : cfg.allowedOrigins.contains (u.protocol ++ "//" ++ u.hostname)
  · simp only [hc, Bool.not_true, Bool.false_eq_true, if_false, authSuccess]
    simpa using (contains_iff_mem _ _).mp hc
  · have hc2 : cfg.allowedOrigins.contains (u.protocol ++ "//" ++ u.hostname)
        = false := by
      cases hcc : cfg.allowedOrigins.contains (u.protocol ++ "//" ++ u.hostname)
      · rfl
      · exact absurd hcc hc
    simp only [hc2, Bool.not_false, if_true]
    constructor
    · intro hfalse
      exact absurd hfalse (by simp)
    · intro hmem
      exact absurd ((contains_iff_mem _ _).mpr hmem) hc

/-- Allow-list entry without a port, for the C8 witness. -/
def cfgW8 : SecurityConfig :=
  { apiSecret := "s", allowedOrigins := ["https://ok.example"] }

/-- Request whose Referer matches `cfgW8` once the port-free origin is
rebuilt. -/
def reqW8 : AuthRequest :=
  { authorization := some "Bearer s", origin := none,
    referer := RefererVal.parsed ⟨"https:", "ok.example", ""⟩,
    userAgent := none, xRequestedWith := none, ip := none,
    xForwardedFor := none, sessionId := none }

/-- Witness for C8 as amended at a concrete accepted request. -/
theorem validateAuth_referer_origin_witness :
    (validateAuth cfgW8 reqW8).valid = true := by
  have h := validateAuth_referer_origin cfgW8 reqW8
    ⟨"https:", "ok.example", ""⟩
    "Bearer s" rfl (by decide) (by decide) (by decide) rfl rfl
  exact h.mpr (by decide)

/-! ## RequestOrchestrator (src `app/api/claude-code/route.ts`, `POST`)

The handler's stage order is: `validateAuth` → `rateLimiter.check` →
body-shape `validateRequest` → `claudeWrapper.execute` →
`rateLimiter.recordSuccess` → success envelope; every `throw` from the
execution stage lands in the surrounding `catch`, which produces the
`INTERNAL_SERVER_ERROR` code.  The stage verdicts (auth, validation) and
the execution result are inputs here; the limiter state is threaded
explicitly.  `ErrorCode` is modelled from the spec: the constants module
(`ERROR_CODES`, §7's closed set) is not under `src/`; the route reaches
only the four codes below other than `TIMEOUT_ERROR`/`EXECUTION_ERROR`. -/

/-- Modelled from the spec: the closed set of §7 error codes (the
`ERROR_CODES` constants file is absent from `src/`). -/
inductive ErrorCode where
  | UNAUTHORIZED
  | RATE_LIMIT_EXCEEDED
  | INVALID_REQUEST
  | TIMEOUT_ERROR
  | EXECUTION_ERROR
  | INTERNAL_SERVER_ERROR
deriving DecidableEq, Repr

/-- Model: `ValidationResult` from `types.ts` (the verdict of `validateRequest`
on the parsed body). -/
structure ValidationResult where
  valid : Bool
  message : Option String
deriving DecidableEq, Repr

/-- The observable outcome of the handler: an error envelope's code, or the
success envelope's data. -/
inductive PostOutcome where
  | failure (code : ErrorCode)
  | success (data : ClaudeExecutionResult)
deriving DecidableEq, Repr

/-- Model: `ClaudeWrapper.execute`, reduced to its result-relevant skeleton: the
temp-directory and prompt-file staging are IO-only (cleanup failures are
logged, never propagated), leaving `executeWithRetry` followed by
`parseOutput`; the retry-exhaustion throw propagates as `.error`. -/
def ClaudeWrapper.execute (maxRetries : Nat) (action : String)
    (run : Nat → ExecOutcome) : Except String ClaudeExecutionResult :=
  match (executeWithRetry run maxRetries).1 with
  | .ok output => .ok (parseOutput output action)
  | .error e => .error e

/-- The `POST` handler of `route.ts`: auth, then rate limit, then body
validation, then execution (any throw becomes `INTERNAL_SERVER_ERROR`),
then `recordSuccess` and the success envelope. -/
def POST (rl : RateLimiter) (now : Int) (authResult : AuthResult)
    (validation : ValidationResult)
    (execResult : Except String ClaudeExecutionResult) :
    PostOutcome × RateLimiter :=
  if authResult.valid = false then (.failure .UNAUTHORIZED, rl)
  else
    let clientId := jsOrS authResult.clientId "anonymous"
    let checked := rl.check clientId now
    if checked.1.allowed = false then (.failure .RATE_LIMIT_EXCEEDED, checked.2)
    else if validation.valid = false then (.failure .INVALID_REQUEST, checked.2)
    else
      match execResult with
      | .error _ => (.failure .INTERNAL_SERVER_ERROR, checked.2)
      | .ok result => (.success result, checked.2.recordSuccess clientId)

theorem retryFrom_always_err (msgs : Nat → String) (maxRetries : Nat) :
    ∀ (remaining attempt : Nat) (lastE : Option String),
      ∃ e, (retryFrom (fun a => ExecOutcome.err (msgs a)) maxRetries
              attempt remaining lastE).1
            = Except.error e := by
  intro remaining
  induction remaining with
  | zero =>
    intro attempt lastE
    exact ⟨retryFailMsg maxRetries lastE, rfl⟩
  | succ r ih =>
    intro attempt lastE
    rw [retryFrom_succ_eq]
    dsimp only
    by_cases hlt : attempt < maxRetries
    · rw [if_pos hlt]
      exact ih (attempt + 1) (some (msgs attempt))
    · rw [if_neg hlt]
      exact ⟨_, rfl⟩

/-! ### Orchestrator claims -/

/-- A fresh limiter as configured at module load. -/
def rlEmpty : RateLimiter :=
  { requests := [], windowMs := 60000, maxRequests := 2,
    skipSuccessfulRequests := false }

/-- A passing auth verdict for client `"w"`. -/
def authOKW : AuthResult :=
  { valid := true, clientId := some "w",
    message := some "Authentication successful" }

/-- A failing auth verdict. -/
def authBadW : AuthResult :=
  { valid := false, clientId := none, message := some "Invalid API key" }

/-- A passing body validation. -/
def vOKW : ValidationResult := { valid := true, message := none }

/-- A failing body validation. -/
def vBadW : ValidationResult :=
  { valid := false, message := some "Prompt is required and must be a string" }

/-- A limiter state in which client `"w"` is over quota at `now = 10`. -/
def rlDeniedW : RateLimiter :=
  { requests := [("w", [5])], windowMs := 10, maxRequests := 1,
    skipSuccessfulRequests := false }

/-- C4 counterexample: a request failing body-shape validation still gets a
rate-limit timestamp recorded (the check precedes validation), and when
both authentication and validation fail the envelope is `UNAUTHORIZED`,
showing authentication runs before shape validation. -/
theorem invalid_body_records_timestamp_counterexample :
    (POST rlEmpty 0 authOKW vBadW (.ok {})).1 = .failure .INVALID_REQUEST
    ∧ (POST rlEmpty 0 authOKW vBadW (.ok {})).2.requests = [("w", [0])]
    ∧ (POST rlEmpty 0 authBadW vBadW (.ok {})).1 = .failure .UNAUTHORIZED :=
  ⟨by decide, by decide, by decide⟩

/-- C4 as amended: the stage order is authentication, then rate limiting,
then body-shape validation, then execution, short-circuiting at the first
failure; a body that fails validation still commits the rate-limit check's
updated store (its timestamp is recorded), while auth and rate-limit
rejections leave the store as the check left it. -/
theorem post_stage_order (rl : RateLimiter) (now : Int) (auth : AuthResult)
    (validation : ValidationResult)
    (execResult : Except String ClaudeExecutionResult) :
    (auth.valid = false →
      POST rl now auth validation execResult = (.failure .UNAUTHORIZED, rl))
    ∧ (auth.valid = true →
        (rl.check (jsOrS auth.clientId "anonymous") now).1.allowed = false →
        POST rl now auth validation execResult
          = (.failure .RATE_LIMIT_EXCEEDED,
             (rl.check (jsOrS auth.clientId "anonymous") now).2))
    ∧ (auth.valid = true →
        (rl.check (jsOrS auth.clientId "anonymous") now).1.allowed = true →
        validation.valid = false →
        POST rl now auth validation execResult
          = (.failure .INVALID_REQUEST,
             (rl.check (jsOrS auth.clientId "anonymous") now).2)) := by
  refine ⟨?_, ?_, ?_⟩
  · intro h
    simp [POST, h]
  · intro h1 h2
    simp [POST, h1, h2]
  · intro h1 h2 h3
    simp [POST, h1, h2, h3]

/-- Witness for C4 as amended: the three short-circuits at concrete
inputs. -/
theorem post_stage_order_witness :
    POST rlDeniedW 10 authBadW vOKW (.ok {}) = (.failure .UNAUTHORIZED, rlDeniedW)
    ∧ POST rlDeniedW 10 authOKW vOKW (.ok {})
        = (.failure .RATE_LIMIT_EXCEEDED, (rlDeniedW.check "w" 10).2)
    ∧ POST rlEmpty 0 authOKW vBadW (.ok {})
        = (.failure .INVALID_REQUEST, (rlEmpty.check "w" 0).2) :=
  ⟨(post_stage_order rlDeniedW 10 authBadW vOKW (.ok {})).1 (by decide),
   (post_stage_order rlDeniedW 10 authOKW vOKW (.ok {})).2.1 (by decide) (by decide),
   (post_stage_order rlEmpty 0 authOKW vBadW (.ok {})).2.2 (by decide) (by decide)
     (by decide)⟩

/-- C3 counterexample: a subprocess failing every attempt makes the wrapper
throw a plain `Error`; the route's catch-all turns it into the generic
`INTERNAL_SERVER_ERROR` envelope, not `EXECUTION_ERROR` or
`TIMEOUT_ERROR`. -/
theorem exec_failure_internal_error_counterexample :
    ClaudeWrapper.execute 3 "generate" (fun _ => ExecOutcome.err "spawn claude ENOENT")
      = Except.error "Claude CLI failed after 3 attempts: spawn claude ENOENT"
    ∧ (POST rlEmpty 0 authOKW vOKW
        (ClaudeWrapper.execute 3 "generate"
          (fun _ => ExecOutcome.err "spawn claude ENOENT"))).1
      = .failure .INTERNAL_SERVER_ERROR
    ∧ ErrorCode.INTERNAL_SERVER_ERROR ≠ ErrorCode.EXECUTION_ERROR
    ∧ ErrorCode.INTERNAL_SERVER_ERROR ≠ ErrorCode.TIMEOUT_ERROR :=
  ⟨by rfl, by decide, by decide, by decide⟩

/-- C3 as amended: whenever the subprocess fails on every attempt, the
envelope carries the generic `INTERNAL_SERVER_ERROR` code (the wrapper's
throw is caught by the route's catch-all; no `TIMEOUT_ERROR` or
`EXECUTION_ERROR` code is ever attached). -/
theorem post_exec_failure_internal_error (rl : RateLimiter) (now : Int)
    (auth : AuthResult) (validation : ValidationResult) (maxRetries : Nat)
    (action : String) (msgs : Nat → String)
    (h1 : auth.valid = true)
    (h2 : (rl.check (jsOrS auth.clientId "anonymous") now).1.allowed = true)
    (h3 : validation.valid = true) :
    (POST rl now auth validation
        (ClaudeWrapper.execute maxRetries action
          (fun a => ExecOutcome.err (msgs a)))).1
      = .failure .INTERNAL_SERVER_ERROR := by
  obtain ⟨e, he⟩ := retryFrom_always_err msgs maxRetries maxRetries 1 none
  have hexec : ClaudeWrapper.execute maxRetries action
      (fun a => ExecOutcome.err (msgs a)) = .error e := by
    unfold ClaudeWrapper.execute executeWithRetry
    rw [he]
  rw [hexec]
  simp [POST, h1, h2, h3]

/-- Witness for C3 as amended at a concrete always-failing subprocess. -/
theorem post_exec_failure_internal_error_witness :
    (POST rlEmpty 0 authOKW vOKW
        (ClaudeWrapper.execute 2 "generate" (fun _ => ExecOutcome.err "boom"))).1
      = .failure .INTERNAL_SERVER_ERROR :=
  post_exec_failure_internal_error rlEmpty 0 authOKW vOKW 2 "generate"
    (fun _ => "boom") (by decide) (by decide) (by decide)
